import Mathlib

/-!
Verification of the query-and-aggregation pipeline of `policyfromOppDash.py`.

The development shallowly embeds the script's functions:

* `get_date_range` (source lines 22–45): date-range computation for the
  Week / Month / Quarter period selector.  Python `datetime` values are
  modelled as civil (wall-clock) date-time records; `timedelta` addition of
  `k` days is modelled as `k`-fold application of the successor-day function,
  which agrees with Python's ordinal-based implementation on all valid dates.
  The `pytz` timezone `"US/Eastern"` is a fixed constant of the script and is
  carried as the constant `get_date_range_tz`; the final `strftime`
  serialization renders the civil fields at second resolution and is not
  re-modelled.  Every branch of the source zeroes `microsecond` (via
  `replace(..., microsecond=0)` or direct construction) before any value can
  reach the output, and whole-second arithmetic never borrows through the
  microsecond field, so the `microsecond` field is carried but stays zero in
  all results.

* `connect_to_salesforce_and_run_query` (lines 49–98): authentication,
  SOQL submission, the `nextRecordsUrl` pagination loop, and the pandas
  shaping steps (drop `attributes`; `astype(int)` on `PolicyCount`;
  `pd.to_numeric(..., errors="coerce").fillna(0)` on `TotalPremium`;
  `pd.to_datetime` on `EffectiveDate`; the synthetic 1-based
  `OpportunityIndex`).  The remote service is modelled as an environment
  value listing the page responses; raising Python exceptions is modelled
  with `Option`/`Except`, and the single `except Exception` handler of the
  source maps every failure to the return value `(None, None)`, i.e. `none`.

* the Streamlit session-state update (lines 104–136) and the
  `groupby('PolicyType').agg(sum)` aggregation (lines 171–174).
-/

/-- Civil (wall-clock) date-time, the model of a Python `datetime` value.
All fields are naturals; validity is the separate predicate `ValidDT`. -/
structure DateTime where
  year : Nat
  month : Nat
  day : Nat
  hour : Nat
  minute : Nat
  second : Nat
  microsecond : Nat
deriving DecidableEq

/-- Gregorian leap-year test, as in Python's `calendar.isleap`. -/
def isLeapYear (y : Nat) : Bool :=
  (y % 4 == 0 && y % 100 != 0) || y % 400 == 0

/-- Number of days of month `m` (1–12) of year `y`; `0` outside 1–12. -/
def daysInMonth (y m : Nat) : Nat :=
  match m with
  | 1 => 31
  | 2 => if isLeapYear y then 29 else 28
  | 3 => 31
  | 4 => 30
  | 5 => 31
  | 6 => 30
  | 7 => 31
  | 8 => 31
  | 9 => 30
  | 10 => 31
  | 11 => 30
  | 12 => 31
  | _ => 0

/-- Number of days of year `y`. -/
def daysInYear (y : Nat) : Nat :=
  if isLeapYear y then 366 else 365

/-- Days of year `y` strictly before month `m`. -/
def daysBeforeMonth (y : Nat) : Nat → Nat
  | 0 => 0
  | m + 1 => daysBeforeMonth y m + daysInMonth y m

/-- Days strictly before January 1 of year `y` in the proleptic Gregorian
calendar (year 1 is the first year). -/
def daysBeforeYear : Nat → Nat
  | 0 => 0
  | 1 => 0
  | y + 2 => daysBeforeYear (y + 1) + daysInYear (y + 1)

/-- Proleptic Gregorian ordinal of the date part, as in Python's
`date.toordinal` (January 1 of year 1 is ordinal 1). -/
def toOrdinal (d : DateTime) : Nat :=
  daysBeforeYear d.year + daysBeforeMonth d.year d.month + d.day

/-- Python's `datetime.weekday()`: Monday is `0`, Sunday is `6`. -/
def weekday (d : DateTime) : Nat :=
  (toOrdinal d - 1) % 7

/-- Validity of a civil date-time (what Python's `datetime` constructor
enforces). -/
def ValidDT (d : DateTime) : Prop :=
  1 ≤ d.year ∧ 1 ≤ d.month ∧ d.month ≤ 12 ∧ 1 ≤ d.day ∧
    d.day ≤ daysInMonth d.year d.month ∧ d.hour < 24 ∧ d.minute < 60 ∧
    d.second < 60 ∧ d.microsecond < 1000000

instance : DecidablePred ValidDT := fun d => by
  unfold ValidDT
  infer_instance

/-- The next calendar day (time-of-day fields unchanged). -/
def addOneDay (d : DateTime) : DateTime :=
  if d.day < daysInMonth d.year d.month then { d with day := d.day + 1 }
  else if d.month < 12 then { d with month := d.month + 1, day := 1 }
  else { d with year := d.year + 1, month := 1, day := 1 }

/-- The previous calendar day (time-of-day fields unchanged). -/
def subOneDay (d : DateTime) : DateTime :=
  if 1 < d.day then { d with day := d.day - 1 }
  else if 1 < d.month then
    { d with month := d.month - 1, day := daysInMonth d.year (d.month - 1) }
  else { d with year := d.year - 1, month := 12, day := 31 }

/-- Iterated successor day: the model of `date + timedelta(days=n)`. -/
def addDays : Nat → DateTime → DateTime
  | 0, d => d
  | n + 1, d => addDays n (addOneDay d)

/-- Iterated predecessor day: the model of `date - timedelta(days=n)`. -/
def subDays : Nat → DateTime → DateTime
  | 0, d => d
  | n + 1, d => subDays n (subOneDay d)

/-- Seconds elapsed since midnight of the value's own day. -/
def secOfDay (d : DateTime) : Nat :=
  d.hour * 3600 + d.minute * 60 + d.second

/-- Replace the hour/minute/second fields by the time-of-day `t` (in
seconds, `t < 86400`); the microsecond field is untouched. -/
def setTimeOfDay (d : DateTime) (t : Nat) : DateTime :=
  { d with hour := t / 3600, minute := t % 3600 / 60, second := t % 60 }

/-- Model of `dt + timedelta(days=days, seconds=secs)` for a non-negative
normalized timedelta with zero microseconds. -/
def addTimedelta (d : DateTime) (days secs : Nat) : DateTime :=
  let t := secOfDay d + secs
  setTimeOfDay (addDays (days + t / 86400) d) (t % 86400)

/-- Model of `dt - timedelta(seconds=n)`.  Whole-second subtraction never borrows
through the microsecond field, which is untouched. -/
def subSeconds (d : DateTime) (n : Nat) : DateTime :=
  if n ≤ secOfDay d then setTimeOfDay d (secOfDay d - n)
  else
    let borrow := (n - secOfDay d + 86399) / 86400
    setTimeOfDay (subDays borrow d) (secOfDay d + borrow * 86400 - n)

/-- Microseconds since the epoch 0001-01-01T00:00:00.000000; chronological
order on valid date-times is the order of this value. -/
def toMicros (d : DateTime) : Nat :=
  ((toOrdinal d - 1) * 86400 + secOfDay d) * 1000000 + d.microsecond

/-- The fixed timezone of `get_date_range` (source line 24):
`pytz.timezone("US/Eastern")`. -/
def get_date_range_tz : String := "US/Eastern"

/-- Model of `get_date_range` (source lines 22–45).  `today` stands for
`datetime.now(tz)`, injected as a parameter; the result is the pair of civil
date-times that the source serializes with
`strftime("%Y-%m-%dT%H:%M:%S%z")`.  `none` models the `ValueError` raised
for a period outside Week/Month/Quarter. -/
def get_date_range (period : String) (today : DateTime) :
    Option (DateTime × DateTime) :=
  if period = "Week" then
    let start_of_period :=
      { subDays (weekday today) today with
          hour := 0
          minute := 0
          second := 0
          microsecond := 0 }
    let end_of_period := addTimedelta start_of_period 6 86399
    some (start_of_period, end_of_period)
  else if period = "Month" then
    let start_of_period :=
      { today with
          day := 1
          hour := 0
          minute := 0
          second := 0
          microsecond := 0 }
    let end_of_period :=
      subSeconds { addTimedelta start_of_period 31 0 with day := 1 } 1
    some (start_of_period, end_of_period)
  else if period = "Quarter" then
    let quarter := (today.month - 1) / 3 + 1
    let start_of_period : DateTime :=
      ⟨today.year, 3 * quarter - 2, 1, 0, 0, 0, 0⟩
    let end_of_period : DateTime :=
      if quarter < 4 then
        subSeconds ⟨today.year, 3 * quarter + 1, 1, 0, 0, 0, 0⟩ 1
      else ⟨today.year, 12, 31, 23, 59, 59, 0⟩
    some (start_of_period, end_of_period)
  else none

/-- Calendar date (the date part of a parsed `EffectiveDate`). -/
structure CalDate where
  year : Nat
  month : Nat
  day : Nat
deriving DecidableEq

/-- A raw field value of a Salesforce JSON record: a string, a number, or
null/missing. -/
inductive FieldValue where
  | vNull : FieldValue
  | vStr : String → FieldValue
  | vNum : ℚ → FieldValue
deriving DecidableEq

/-- Value of a non-empty list of decimal digit characters, `none` if some
character is not a digit. -/
def digitsToNat (cs : List Char) : Option Nat :=
  if cs ≠ [] ∧ cs.all Char.isDigit then
    some (cs.foldl (fun n c => n * 10 + (c.toNat - 48)) 0)
  else none

/-- Python's `int(s)` on a string: optional sign followed by digits
(surrounding whitespace is not modelled). -/
def parseIntStr (s : String) : Option Int :=
  match s.toList with
  | '-' :: cs => (digitsToNat cs).map (fun n => -(n : Int))
  | '+' :: cs => (digitsToNat cs).map (fun n => (n : Int))
  | cs => (digitsToNat cs).map (fun n => (n : Int))

/-- Decimal-number parsing as done by `pd.to_numeric` on a string:
optional sign, integer digits, optional fraction digits; at least one digit
overall. -/
def parseDecimalStr (s : String) : Option ℚ :=
  let core : List Char → Option ℚ := fun cs =>
    match cs.splitOn '.' with
    | [intPart] => (digitsToNat intPart).map (fun n => (n : ℚ))
    | [intPart, fracPart] =>
      if intPart ≠ [] ∧ fracPart ≠ [] ∧ (intPart ++ fracPart).all Char.isDigit
      then
        some (((digitsToNat (intPart ++ fracPart)).getD 0 : ℚ) /
          (10 : ℚ) ^ fracPart.length)
      else if intPart = [] then (digitsToNat fracPart).map
        (fun n => (n : ℚ) / (10 : ℚ) ^ fracPart.length)
      else if fracPart = [] then (digitsToNat intPart).map (fun n => (n : ℚ))
      else none
    | _ => none
  match s.toList with
  | '-' :: cs => (core cs).map (fun q => -q)
  | '+' :: cs => core cs
  | cs => core cs

/-- ISO `YYYY-MM-DD` date parsing as done by `pd.to_datetime` on the
date strings Salesforce returns; the parsed date must be a real calendar
date. -/
def parseDateStr (s : String) : Option CalDate :=
  match (s.toList.splitOn '-').map digitsToNat with
  | [some y, some m, some d] =>
    if 1 ≤ y ∧ 1 ≤ m ∧ m ≤ 12 ∧ 1 ≤ d ∧ d ≤ daysInMonth y m then
      some ⟨y, m, d⟩
    else none
  | _ => none

/-- One raw record of a Salesforce aggregate-query response (source query,
lines 60–70): the `attributes` metadata, the `PolicyType` dimension and the
three measures. -/
structure RawRecord where
  attributes : Option String
  PolicyType : Option String
  PolicyCount : FieldValue
  TotalPremium : FieldValue
  EffectiveDate : FieldValue
deriving DecidableEq

/-- Model of `astype(int)` on one `PolicyCount` cell (source line 90): numbers are
truncated toward zero, numeric strings are parsed with `int`, anything else
(including null) raises. -/
def coerceCount : FieldValue → Option Int
  | .vNull => none
  | .vStr s => parseIntStr s
  | .vNum q => some (Int.tdiv q.num q.den)

/-- Model of `pd.to_numeric(x, errors="coerce")` on one `TotalPremium` cell (source
line 91): `none` is the NaN produced for null or unparseable input. -/
def toNumericQ : FieldValue → Option ℚ
  | .vNull => none
  | .vStr s => parseDecimalStr s
  | .vNum q => some q

/-- Model of `.fillna(0)` after the coercion of line 91: unparseable or missing
premium becomes exactly zero. -/
def coercePremium (v : FieldValue) : ℚ :=
  (toNumericQ v).getD 0

/-- Model of `pd.to_datetime` on one `EffectiveDate` cell (source line 92): null
becomes NaT (modelled `some none`), a parseable date string is parsed, and
anything else raises. -/
def coerceDate : FieldValue → Option (Option CalDate)
  | .vNull => some none
  | .vStr s => (parseDateStr s).map some
  | .vNum _ => none

/-- One row of the shaped `ResultTable` (the DataFrame returned at source
line 94): the synthetic 1-based index of line 89, the dimension, and the
coerced measures.  The `attributes` column has been dropped (line 84). -/
structure ShapedRow where
  OpportunityIndex : Nat
  PolicyType : Option String
  PolicyCount : Int
  TotalPremium : ℚ
  EffectiveDate : Option CalDate
deriving DecidableEq

/-- Failures of the shaping steps, all caught by the source's single
`except Exception` handler: `keyError` is the pandas `KeyError` raised when
`df['PolicyCount']` is selected on the empty (column-free) DataFrame built
from zero records, and the other two are the spec's `TypeCoercionError` and
`DateParseError`. -/
inductive ShapeError where
  | keyError : ShapeError
  | typeCoercionError : ShapeError
  | dateParseError : ShapeError
deriving DecidableEq

/-- Column-wise optional coercion: `some` of the coerced column when every
cell coerces, `none` as soon as one cell fails — a pandas column operation
raises if any element of the column raises. -/
def mapOption {A B : Type} (f : A → Option B) : List A → Option (List B)
  | [] => some []
  | a :: l =>
    match f a, mapOption f l with
    | some b, some bs => some (b :: bs)
    | _, _ => none

/-- Zip the source records with the coerced columns and the 1-based
synthetic index into shaped rows. -/
def buildRows : Nat → List RawRecord → List Int → List ℚ →
    List (Option CalDate) → List ShapedRow
  | i, r :: rs, c :: cs, p :: ps, d :: ds =>
    ⟨i, r.PolicyType, c, p, d⟩ :: buildRows (i + 1) rs cs ps ds
  | _, _, _, _, _ => []

/-- The shaping steps of source lines 81–92 applied to the fetched records,
in the source's column order: build the DataFrame (empty input leaves no
columns, so the first column selection raises `KeyError`), coerce
`PolicyCount` with `astype(int)` (a `TypeCoercionError` aborts everything),
coerce `TotalPremium` with to-numeric-then-fillna (never fails), parse
`EffectiveDate` (a `DateParseError` aborts everything). -/
def shapeRecords (records : List RawRecord) :
    Except ShapeError (List ShapedRow) :=
  if records = [] then .error .keyError
  else
    match mapOption (fun r => coerceCount r.PolicyCount) records with
    | none => .error .typeCoercionError
    | some counts =>
      match mapOption (fun r => coerceDate r.EffectiveDate) records with
      | none => .error .dateParseError
      | some dates =>
        .ok (buildRows 1 records counts
          (records.map (fun r => coercePremium r.TotalPremium)) dates)

/-- One page of a query response: the records plus the optional
continuation cursor `nextRecordsUrl`. -/
structure QueryResponse where
  records : List RawRecord
  nextRecordsUrl : Option String
deriving DecidableEq

/-- The pagination loop of source lines 73–78: start from the first
response's records; while a continuation cursor is present, fetch the next
page and append its records.  `more` lists the successive responses the
server returns to `query_more`; `none` models `query_more` raising because
the server produced no further response for a presented cursor. -/
def fetchRecords (first : QueryResponse) (more : List QueryResponse) :
    Option (List RawRecord) :=
  match first.nextRecordsUrl with
  | none => some first.records
  | some _ =>
    match more with
    | [] => none
    | p :: ps => (fetchRecords p ps).map (fun rest => first.records ++ rest)

/-- The remote service and credentials as seen by one execution:
whether the `Salesforce(...)` construction (authentication) succeeds,
the response to the initial query (`none` models `query_all` raising,
e.g. malformed SOQL or a network fault), and the successive `query_more`
responses. -/
structure SalesforceEnv where
  authOk : Bool
  firstResponse : Option QueryResponse
  morePages : List QueryResponse
deriving DecidableEq

/-- The SOQL template of source lines 60–70 with the two date bounds
interpolated. -/
def soql_query (start_date end_date : String) : String :=
  "\n            SELECT PolicyType, COUNT(Id) PolicyCount, " ++
  "SUM(Total_Policy_Premium__c) TotalPremium, MIN(EffectiveDate) EffectiveDate\n" ++
  "            FROM InsurancePolicy\n" ++
  "            WHERE SourceOpportunityId != NULL\n" ++
  "            AND Business_Type_Reporting__c = 'New Business'\n" ++
  "            AND EffectiveDate >= " ++ start_date ++ "\n" ++
  "            AND EffectiveDate <= " ++ end_date ++ "\n" ++
  "            AND Status = 'Active'\n" ++
  "            GROUP BY SourceOpportunityId, PolicyType\n" ++
  "            LIMIT 2000\n        "

/-- Model of `connect_to_salesforce_and_run_query` (source lines 49–98).
Every failure — authentication, query submission, pagination, or shaping —
is caught by the single `except Exception` handler and surfaced as the one
failure value `(None, None)`, modelled `none`. -/
def connect_to_salesforce_and_run_query (env : SalesforceEnv)
    (start_date end_date : String) : Option (List ShapedRow × String) :=
  if env.authOk then
    match env.firstResponse with
    | none => none
    | some qr =>
      match fetchRecords qr env.morePages with
      | none => none
      | some records =>
        match shapeRecords records with
        | .error _ => none
        | .ok rows => some (rows, soql_query start_date end_date)
  else none

/-- The session-state cache of source lines 104–108. -/
structure SessionState where
  authenticated : Bool
  df : Option (List ShapedRow)
  query : Option String
  force_query : Bool
deriving DecidableEq

/-- One run of the session-update logic of source lines 120–136: pressing
the button sets `force_query`; when a query is due and the button was
pressed, the query runs, and the cache is overwritten only when it returns
a table (`df is not None`). -/
def session_step (s : SessionState) (run_query_button : Bool)
    (env : SalesforceEnv) (start_date end_date : String) : SessionState :=
  let s1 := if run_query_button then { s with force_query := true } else s
  if s1.force_query ∨ s1.authenticated = false then
    if run_query_button then
      match connect_to_salesforce_and_run_query env start_date end_date with
      | some (df, q) =>
        { authenticated := true, df := some df, query := some q,
          force_query := false }
      | none => s1
    else s1
  else s1

/-- Sum of the measure `f` over the rows of `rows` whose `PolicyType`
equals `some k` — one cell of the pandas `groupby(...).agg(sum)`. -/
def sumBy {M : Type} [AddCommMonoid M] (rows : List ShapedRow) (k : String)
    (f : ShapedRow → M) : M :=
  ((rows.filter (fun r => r.PolicyType = some k)).map f).sum

/-- The distinct non-null `PolicyType` keys of the table in ascending
order — pandas `groupby('PolicyType')` drops null keys and sorts the
remaining group keys. -/
def groupKeys (rows : List ShapedRow) : List String :=
  ((rows.filterMap (fun r => r.PolicyType)).dedup).mergeSort
    (fun a b => a ≤ b)

/-- Model of the aggregation of source lines 171–174:
`groupby('PolicyType').agg({'PolicyCount': 'sum', 'TotalPremium': 'sum'})`,
one output row `(key, summed count, summed premium)` per distinct non-null
key. -/
def policy_type_analysis (rows : List ShapedRow) :
    List (String × Int × ℚ) :=
  (groupKeys rows).map (fun k =>
    (k, sumBy rows k (fun r => r.PolicyCount),
      sumBy rows k (fun r => r.TotalPremium)))

lemma daysInMonth_bounds (y m : Nat) (h1 : 1 ≤ m) (h2 : m ≤ 12) :
    28 ≤ daysInMonth y m ∧ daysInMonth y m ≤ 31 := by
  interval_cases m <;> simp only [daysInMonth] <;> (try split_ifs) <;> omega

lemma dby_succ (y : Nat) (h : 1 ≤ y) :
    daysBeforeYear (y + 1) = daysBeforeYear y + daysInYear y := by
  obtain ⟨k, rfl⟩ : ∃ k, y = k + 1 := ⟨y - 1, by omega⟩
  rfl

lemma dbm_twelve (y : Nat) :
    daysBeforeMonth y 12 + daysInMonth y 12 = daysInYear y := by
  cases h : isLeapYear y <;>
    simp [daysBeforeMonth, daysInMonth, daysInYear, h]

lemma toOrdinal_pos (d : DateTime) (h : ValidDT d) : 1 ≤ toOrdinal d := by
  have := h.2.2.2.1
  unfold toOrdinal
  omega

lemma addOneDay_valid (d : DateTime) (h : ValidDT d) :
    ValidDT (addOneDay d) := by
  obtain ⟨y, m, dd, hh, mi, ss, us⟩ := d
  obtain ⟨hy, hm1, hm2, hd1, hd2, hho, hmi, hs, hus⟩ := h
  dsimp only at *
  dsimp only [addOneDay]
  split_ifs with h1 h2
  · refine ⟨hy, hm1, hm2, ?_, h1, hho, hmi, hs, hus⟩
    dsimp only
    omega
  · have hb1 := (daysInMonth_bounds y (m + 1) (by omega) (by omega)).1
    refine ⟨hy, ?_, ?_, ?_, ?_, hho, hmi, hs, hus⟩ <;> dsimp only <;> omega
  · refine ⟨?_, ?_, ?_, ?_, ?_, hho, hmi, hs, hus⟩ <;> dsimp only <;>
      first
        | omega
        | norm_num [daysInMonth]

lemma toOrdinal_addOneDay (d : DateTime) (h : ValidDT d) :
    toOrdinal (addOneDay d) = toOrdinal d + 1 := by
  obtain ⟨y, m, dd, hh, mi, ss, us⟩ := d
  obtain ⟨hy, hm1, hm2, hd1, hd2, _, _, _, _⟩ := h
  dsimp only at *
  dsimp only [addOneDay]
  split_ifs with h1 h2
  · simp only [toOrdinal]
    omega
  · simp only [toOrdinal, daysBeforeMonth]
    omega
  · have hm12 : m = 12 := by omega
    subst hm12
    have e3 : daysInMonth y 12 = 31 := rfl
    have hd31 : dd = 31 := by omega
    subst hd31
    have e1 := dby_succ y hy
    have e2 := dbm_twelve y
    have e4 : daysBeforeMonth (y + 1) 1 = 0 := rfl
    simp only [toOrdinal]
    omega

lemma addDays_valid_ord (n : Nat) (d : DateTime) (h : ValidDT d) :
    ValidDT (addDays n d) ∧ toOrdinal (addDays n d) = toOrdinal d + n := by
  induction n generalizing d with
  | zero => exact ⟨h, rfl⟩
  | succ k ih =>
    have h1 := addOneDay_valid d h
    have h2 := toOrdinal_addOneDay d h
    have h3 := ih (addOneDay d) h1
    refine ⟨h3.1, ?_⟩
    show toOrdinal (addDays k (addOneDay d)) = _
    rw [h3.2, h2]
    omega

lemma subOneDay_valid_ord (d : DateTime) (h : ValidDT d)
    (h2 : 2 ≤ toOrdinal d) :
    ValidDT (subOneDay d) ∧ toOrdinal (subOneDay d) + 1 = toOrdinal d := by
  obtain ⟨y, m, dd, hh, mi, ss, us⟩ := d
  obtain ⟨hy, hm1, hm2, hd1, hd2, hho, hmi, hs, hus⟩ := h
  dsimp only at *
  dsimp only [subOneDay]
  split_ifs with g1 g2
  · refine ⟨⟨hy, hm1, hm2, ?_, ?_, hho, hmi, hs, hus⟩, ?_⟩
    · dsimp only
      omega
    · dsimp only
      omega
    · simp only [toOrdinal]
      omega
  · obtain ⟨m', rfl⟩ : ∃ m', m = m' + 1 := ⟨m - 1, by omega⟩
    have hb := daysInMonth_bounds y (m' + 1 - 1) (by omega) (by omega)
    have e5 : daysInMonth y (m' + 1 - 1) = daysInMonth y m' := by
      rw [Nat.add_sub_cancel]
    have e6 : daysBeforeMonth y (m' + 1 - 1) = daysBeforeMonth y m' := by
      rw [Nat.add_sub_cancel]
    refine ⟨⟨hy, ?_, ?_, ?_, ?_, hho, hmi, hs, hus⟩, ?_⟩
    · dsimp only
      omega
    · dsimp only
      omega
    · dsimp only
      omega
    · dsimp only
      omega
    · simp only [toOrdinal, daysBeforeMonth]
      omega
  · have hm1e : m = 1 := by omega
    have hdd : dd = 1 := by omega
    subst hm1e
    subst hdd
    have hy2 : 2 ≤ y := by
      by_contra hc
      have hy1 : y = 1 := by omega
      subst hy1
      simp [toOrdinal, daysBeforeYear, daysBeforeMonth, daysInMonth] at h2
    obtain ⟨y', rfl⟩ : ∃ y', y = y' + 1 := ⟨y - 1, by omega⟩
    have e1 := dby_succ y' (by omega)
    have e2 := dbm_twelve y'
    have e3 : daysInMonth y' 12 = 31 := rfl
    have e4 : daysBeforeMonth (y' + 1) 1 = 0 := rfl
    refine ⟨⟨?_, ?_, ?_, ?_, ?_, hho, hmi, hs, hus⟩, ?_⟩
    · dsimp only
      omega
    · dsimp only
      omega
    · dsimp only
      omega
    · dsimp only
      omega
    · dsimp only
      simp only [Nat.add_sub_cancel]
      omega
    · simp only [toOrdinal, Nat.add_sub_cancel]
      omega

lemma subDays_valid_ord (n : Nat) (d : DateTime) (h : ValidDT d)
    (hn : n + 1 ≤ toOrdinal d) :
    ValidDT (subDays n d) ∧ toOrdinal (subDays n d) + n = toOrdinal d := by
  induction n generalizing d with
  | zero => exact ⟨h, rfl⟩
  | succ k ih =>
    have h1 := subOneDay_valid_ord d h (by omega)
    have h3 := ih (subOneDay d) h1.1 (by omega)
    refine ⟨h3.1, ?_⟩
    show toOrdinal (subDays k (subOneDay d)) + _ = _
    omega

lemma addOneDay_time (d : DateTime) :
    (addOneDay d).hour = d.hour ∧ (addOneDay d).minute = d.minute ∧
      (addOneDay d).second = d.second ∧
      (addOneDay d).microsecond = d.microsecond := by
  unfold addOneDay
  split_ifs <;> exact ⟨rfl, rfl, rfl, rfl⟩

lemma addDays_time (n : Nat) (d : DateTime) :
    (addDays n d).hour = d.hour ∧ (addDays n d).minute = d.minute ∧
      (addDays n d).second = d.second ∧
      (addDays n d).microsecond = d.microsecond := by
  induction n generalizing d with
  | zero => exact ⟨rfl, rfl, rfl, rfl⟩
  | succ k ih =>
    have h1 := ih (addOneDay d)
    have h2 := addOneDay_time d
    show (addDays k (addOneDay d)).hour = _ ∧ _
    exact ⟨h1.1.trans h2.1, (h1.2.1).trans h2.2.1,
      (h1.2.2.1).trans h2.2.2.1, (h1.2.2.2).trans h2.2.2.2⟩

lemma addDays_add (a b : Nat) (d : DateTime) :
    addDays (a + b) d = addDays b (addDays a d) := by
  induction a generalizing d with
  | zero =>
    rw [Nat.zero_add]
    rfl
  | succ k ih =>
    have e : k + 1 + b = (k + b) + 1 := by omega
    rw [e]
    show addDays (k + b) (addOneDay d) = _
    rw [ih (addOneDay d)]
    rfl

lemma addDays_within (n : Nat) (d : DateTime) (h : ValidDT d)
    (hn : d.day + n ≤ daysInMonth d.year d.month) :
    addDays n d = { d with day := d.day + n } := by
  induction n generalizing d with
  | zero => rfl
  | succ k ih =>
    obtain ⟨hy, hm1, hm2, hd1, hd2, hho, hmi, hs, hus⟩ := h
    have h1 : d.day < daysInMonth d.year d.month := by omega
    have e : addOneDay d = { d with day := d.day + 1 } := by
      unfold addOneDay
      rw [if_pos h1]
    have hv : ValidDT { d with day := d.day + 1 } :=
      ⟨hy, hm1, hm2, Nat.le_add_left 1 d.day, h1, hho, hmi, hs, hus⟩
    have hb : ({ d with day := d.day + 1 } : DateTime).day + k ≤
        daysInMonth ({ d with day := d.day + 1 } : DateTime).year
          ({ d with day := d.day + 1 } : DateTime).month := by
      dsimp only
      omega
    show addDays k (addOneDay d) = _
    rw [e, ih _ hv hb]
    dsimp only
    congr 1
    omega

lemma addDays31_first (y m hh mi ss us : Nat) (hy : 1 ≤ y) (hm1 : 1 ≤ m)
    (hm2 : m ≤ 12) (hho : hh < 24) (hmi : mi < 60) (hs : ss < 60)
    (hus : us < 1000000) :
    addDays 31 ⟨y, m, 1, hh, mi, ss, us⟩ =
      if m < 12 then ⟨y, m + 1, 32 - daysInMonth y m, hh, mi, ss, us⟩
      else ⟨y + 1, 1, 32 - daysInMonth y m, hh, mi, ss, us⟩ := by
  have hb := daysInMonth_bounds y m hm1 hm2
  have hv : ValidDT ⟨y, m, 1, hh, mi, ss, us⟩ :=
    ⟨hy, hm1, hm2, Nat.le_refl 1, by dsimp only; omega, hho, hmi, hs, hus⟩
  have hsplit : (31 : Nat) =
      (daysInMonth y m - 1) + ((31 - daysInMonth y m) + 1) := by omega
  rw [hsplit, addDays_add,
    addDays_within (daysInMonth y m - 1) ⟨y, m, 1, hh, mi, ss, us⟩ hv
      (by dsimp only; omega)]
  show addDays (31 - daysInMonth y m)
      (addOneDay { (⟨y, m, 1, hh, mi, ss, us⟩ : DateTime) with
        day := (⟨y, m, 1, hh, mi, ss, us⟩ : DateTime).day +
          (daysInMonth y m - 1) }) = _
  have hdim : (⟨y, m, 1, hh, mi, ss, us⟩ : DateTime).day +
      (daysInMonth y m - 1) = daysInMonth y m := by
    dsimp only
    omega
  rw [hdim]
  have hone : addOneDay ⟨y, m, daysInMonth y m, hh, mi, ss, us⟩ =
      if m < 12 then ⟨y, m + 1, 1, hh, mi, ss, us⟩
      else ⟨y + 1, 1, 1, hh, mi, ss, us⟩ := by
    unfold addOneDay
    dsimp only
    rw [if_neg (by omega)]
  rw [hone]
  split_ifs with hc
  · have hb1 := daysInMonth_bounds y (m + 1) (by omega) (by omega)
    have hv1 : ValidDT ⟨y, m + 1, 1, hh, mi, ss, us⟩ :=
      ⟨hy, by dsimp only; omega, by dsimp only; omega, Nat.le_refl 1,
        by dsimp only; omega, hho, hmi, hs, hus⟩
    rw [addDays_within _ ⟨y, m + 1, 1, hh, mi, ss, us⟩ hv1
      (by dsimp only; omega)]
    dsimp only
    congr 1
    omega
  · have e31 : daysInMonth (y + 1) 1 = 31 := rfl
    have hv1 : ValidDT ⟨y + 1, 1, 1, hh, mi, ss, us⟩ :=
      ⟨by dsimp only; omega, by dsimp only; omega, by dsimp only; omega,
        Nat.le_refl 1, by dsimp only; omega, hho, hmi, hs, hus⟩
    rw [addDays_within _ ⟨y + 1, 1, 1, hh, mi, ss, us⟩ hv1
      (by dsimp only; omega)]
    dsimp only
    congr 1
    omega

lemma subSeconds_one_first (Y M : Nat) :
    subSeconds ⟨Y, M, 1, 0, 0, 0, 0⟩ 1 =
      if 1 < M then ⟨Y, M - 1, daysInMonth Y (M - 1), 23, 59, 59, 0⟩
      else ⟨Y - 1, 12, 31, 23, 59, 59, 0⟩ := by
  have e0 : secOfDay ⟨Y, M, 1, 0, 0, 0, 0⟩ = 0 := by norm_num [secOfDay]
  unfold subSeconds
  rw [e0]
  rw [if_neg (by omega)]
  have e1 : (1 - 0 + 86399) / 86400 = 1 := by norm_num
  have e2 : subDays 1 ⟨Y, M, 1, 0, 0, 0, 0⟩ = subOneDay ⟨Y, M, 1, 0, 0, 0, 0⟩ :=
    rfl
  simp only [e1, e2]
  unfold subOneDay
  dsimp only
  rw [if_neg (by omega)]
  have e3 : (0 + 1 * 86400 - 1 : Nat) = 86399 := by norm_num
  rw [e3]
  split_ifs with h
  · rfl
  · rfl

lemma month_end (y m : Nat) (hy : 1 ≤ y) (hm1 : 1 ≤ m) (hm2 : m ≤ 12) :
    subSeconds { addTimedelta ⟨y, m, 1, 0, 0, 0, 0⟩ 31 0 with day := 1 } 1 =
      ⟨y, m, daysInMonth y m, 23, 59, 59, 0⟩ := by
  have e1 : addTimedelta ⟨y, m, 1, 0, 0, 0, 0⟩ 31 0 =
      setTimeOfDay (addDays 31 ⟨y, m, 1, 0, 0, 0, 0⟩) 0 := by
    unfold addTimedelta
    norm_num [secOfDay]
  rw [e1, addDays31_first y m 0 0 0 0 hy hm1 hm2 (by norm_num) (by norm_num)
    (by norm_num) (by norm_num)]
  split_ifs with hc
  · have e2 : ({ setTimeOfDay ⟨y, m + 1, 32 - daysInMonth y m, 0, 0, 0, 0⟩ 0
          with day := 1 } : DateTime) = ⟨y, m + 1, 1, 0, 0, 0, 0⟩ := by
      unfold setTimeOfDay
      norm_num
    rw [e2, subSeconds_one_first, if_pos (by omega : 1 < m + 1)]
    simp only [Nat.add_sub_cancel]
  · have e2 : ({ setTimeOfDay ⟨y + 1, 1, 32 - daysInMonth y m, 0, 0, 0, 0⟩ 0
          with day := 1 } : DateTime) = ⟨y + 1, 1, 1, 0, 0, 0, 0⟩ := by
      unfold setTimeOfDay
      norm_num
    have hm12 : m = 12 := by omega
    subst hm12
    rw [e2, subSeconds_one_first, if_neg (by omega : ¬1 < 1)]
    simp only [Nat.add_sub_cancel]
    rfl

lemma get_date_range_month_eq (today : DateTime) (h : ValidDT today) :
    get_date_range "Month" today =
      some (⟨today.year, today.month, 1, 0, 0, 0, 0⟩,
        ⟨today.year, today.month, daysInMonth today.year today.month,
          23, 59, 59, 0⟩) := by
  obtain ⟨y, m, dd, hh, mi, ss, us⟩ := today
  obtain ⟨hy, hm1, hm2, _, _, _, _, _, _⟩ := h
  dsimp only at *
  have estep : get_date_range "Month" ⟨y, m, dd, hh, mi, ss, us⟩ =
      some (⟨y, m, 1, 0, 0, 0, 0⟩,
        subSeconds { addTimedelta ⟨y, m, 1, 0, 0, 0, 0⟩ 31 0
          with day := 1 } 1) := by
    unfold get_date_range
    rw [if_neg (by decide : ¬("Month" = "Week")), if_pos rfl]
  rw [estep, month_end y m hy hm1 hm2]

lemma dbm_mono (y : Nat) {a b : Nat} (h : a ≤ b) :
    daysBeforeMonth y a ≤ daysBeforeMonth y b := by
  induction h with
  | refl => exact Nat.le_refl _
  | step h2 ih =>
    exact Nat.le_trans ih (Nat.le_add_right _ _)

lemma setTimeOfDay_year (d : DateTime) (t : Nat) :
    (setTimeOfDay d t).year = d.year := rfl

lemma setTimeOfDay_month (d : DateTime) (t : Nat) :
    (setTimeOfDay d t).month = d.month := rfl

lemma setTimeOfDay_day (d : DateTime) (t : Nat) :
    (setTimeOfDay d t).day = d.day := rfl

lemma setTimeOfDay_hour (d : DateTime) (t : Nat) :
    (setTimeOfDay d t).hour = t / 3600 := rfl

lemma setTimeOfDay_minute (d : DateTime) (t : Nat) :
    (setTimeOfDay d t).minute = t % 3600 / 60 := rfl

lemma setTimeOfDay_second (d : DateTime) (t : Nat) :
    (setTimeOfDay d t).second = t % 60 := rfl

lemma setTimeOfDay_microsecond (d : DateTime) (t : Nat) :
    (setTimeOfDay d t).microsecond = d.microsecond := rfl

lemma toOrdinal_setTimeOfDay (d : DateTime) (t : Nat) :
    toOrdinal (setTimeOfDay d t) = toOrdinal d := rfl

lemma get_date_range_week_step (today : DateTime) :
    get_date_range "Week" today =
      some ({ subDays (weekday today) today with
          hour := 0
          minute := 0
          second := 0
          microsecond := 0 },
        addTimedelta { subDays (weekday today) today with
          hour := 0
          minute := 0
          second := 0
          microsecond := 0 } 6 86399) := by
  unfold get_date_range
  rw [if_pos rfl]

lemma week_facts (today : DateTime) (h : ValidDT today) :
    ∃ s e, get_date_range "Week" today = some (s, e) ∧
      ValidDT s ∧ s.hour = 0 ∧ s.minute = 0 ∧ s.second = 0 ∧
      s.microsecond = 0 ∧
      toOrdinal s + weekday today = toOrdinal today ∧
      e.hour = 23 ∧ e.minute = 59 ∧ e.second = 59 ∧ e.microsecond = 0 ∧
      toOrdinal e = toOrdinal s + 6 := by
  have hpos := toOrdinal_pos today h
  have hwd : weekday today + 1 ≤ toOrdinal today := by
    unfold weekday
    omega
  have hsub := subDays_valid_ord (weekday today) today h hwd
  set X := subDays (weekday today) today with hX
  set s : DateTime :=
    { X with hour := 0, minute := 0, second := 0, microsecond := 0 } with hs
  obtain ⟨v1, v2, v3, v4, v5, _, _, _, _⟩ := hsub.1
  have hsv : ValidDT s :=
    ⟨v1, v2, v3, v4, v5, by norm_num, by norm_num, by norm_num, by norm_num⟩
  have hords : toOrdinal s = toOrdinal X := rfl
  have hsec : secOfDay s = 0 := by norm_num [secOfDay]
  have he : addTimedelta s 6 86399 = setTimeOfDay (addDays 6 s) 86399 := by
    unfold addTimedelta
    rw [hsec]
  have hadd := addDays_valid_ord 6 s hsv
  have htime := addDays_time 6 s
  refine ⟨s, addTimedelta s 6 86399, get_date_range_week_step today, hsv,
    rfl, rfl, rfl, rfl, by rw [hords]; omega, ?_, ?_, ?_, ?_, ?_⟩
  · rw [he, setTimeOfDay_hour]
  · rw [he, setTimeOfDay_minute]
  · rw [he, setTimeOfDay_second]
  · rw [he, setTimeOfDay_microsecond, htime.2.2.2]
  · rw [he, toOrdinal_setTimeOfDay]
    exact hadd.2

lemma get_date_range_quarter_eq (today : DateTime) :
    get_date_range "Quarter" today =
      some (⟨today.year, 3 * ((today.month - 1) / 3 + 1) - 2, 1, 0, 0, 0, 0⟩,
        if (today.month - 1) / 3 + 1 < 4 then
          ⟨today.year, 3 * ((today.month - 1) / 3 + 1),
            daysInMonth today.year (3 * ((today.month - 1) / 3 + 1)),
            23, 59, 59, 0⟩
        else ⟨today.year, 12, 31, 23, 59, 59, 0⟩) := by
  unfold get_date_range
  rw [if_neg (by decide : ¬("Quarter" = "Week")),
    if_neg (by decide : ¬("Quarter" = "Month")), if_pos rfl]
  dsimp only
  split_ifs with hq
  · rw [subSeconds_one_first,
      if_pos (by omega : 1 < 3 * ((today.month - 1) / 3 + 1) + 1)]
    simp only [Nat.add_sub_cancel]
  · rfl

/-- C1: for every period among Week, Month and Quarter and every valid
instant taken as the current time, `get_date_range` returns a pair
`(start, end)` with `start` strictly earlier than `end`. -/
theorem get_date_range_start_lt_end (period : String)
    (hp : period = "Week" ∨ period = "Month" ∨ period = "Quarter")
    (today : DateTime) (h : ValidDT today) :
    ∃ s e, get_date_range period today = some (s, e) ∧
      toMicros s < toMicros e := by
  rcases hp with rfl | rfl | rfl
  · obtain ⟨s, e, heq, hsv, h1, h2, h3, h4, hord, e1, e2, e3, e4, eord⟩ :=
      week_facts today h
    refine ⟨s, e, heq, ?_⟩
    have hp1 := toOrdinal_pos s hsv
    unfold toMicros secOfDay
    rw [h1, h2, h3, h4, e1, e2, e3, e4, eord]
    omega
  · rw [get_date_range_month_eq today h]
    refine ⟨_, _, rfl, ?_⟩
    have hb := daysInMonth_bounds today.year today.month h.2.1 h.2.2.1
    unfold toMicros secOfDay toOrdinal
    dsimp only
    omega
  · rw [get_date_range_quarter_eq today]
    have hm1 := h.2.1
    have hm2 := h.2.2.1
    refine ⟨_, _, rfl, ?_⟩
    split_ifs with hqlt
    · have hb := daysInMonth_bounds today.year
        (3 * ((today.month - 1) / 3 + 1)) (by omega) (by omega)
      have hmono := dbm_mono today.year
        (by omega : 3 * ((today.month - 1) / 3 + 1) - 2 ≤
          3 * ((today.month - 1) / 3 + 1))
      unfold toMicros secOfDay toOrdinal
      dsimp only
      omega
    · have hmono := dbm_mono today.year
        (by omega : 3 * ((today.month - 1) / 3 + 1) - 2 ≤ 12)
      unfold toMicros secOfDay toOrdinal
      dsimp only
      omega

theorem get_date_range_start_lt_end_witness :
    ∃ s e,
      get_date_range "Week" ⟨2024, 10, 12, 14, 30, 45, 123456⟩ =
        some (s, e) ∧ toMicros s < toMicros e :=
  get_date_range_start_lt_end "Week" (Or.inl rfl)
    ⟨2024, 10, 12, 14, 30, 45, 123456⟩ (by decide)

/-- C2: for every valid instant taken as the current time, the Week range
starts on a Monday (Python weekday 0) at 00:00:00 and ends on a Sunday
(weekday 6) at 23:59:59 whose date is six days after the start date — a
closed range spanning seven calendar days — and the computation's fixed
timezone constant is US/Eastern. -/
theorem get_date_range_week_monday_sunday (today : DateTime)
    (h : ValidDT today) :
    ∃ s e, get_date_range "Week" today = some (s, e) ∧
      weekday s = 0 ∧ s.hour = 0 ∧ s.minute = 0 ∧ s.second = 0 ∧
      weekday e = 6 ∧ e.hour = 23 ∧ e.minute = 59 ∧ e.second = 59 ∧
      toOrdinal e = toOrdinal s + 6 ∧ get_date_range_tz = "US/Eastern" := by
  obtain ⟨s, e, heq, hsv, h1, h2, h3, h4, hord, e1, e2, e3, e4, eord⟩ :=
    week_facts today h
  have hp1 := toOrdinal_pos s hsv
  have hpt := toOrdinal_pos today h
  unfold weekday at hord ⊢
  refine ⟨s, e, heq, by omega, h1, h2, h3, by omega, e1, e2, e3, eord, rfl⟩

theorem get_date_range_week_monday_sunday_witness :
    ∃ s e,
      get_date_range "Week" ⟨2024, 10, 12, 14, 30, 45, 123456⟩ =
        some (s, e) ∧
      weekday s = 0 ∧ s.hour = 0 ∧ s.minute = 0 ∧ s.second = 0 ∧
      weekday e = 6 ∧ e.hour = 23 ∧ e.minute = 59 ∧ e.second = 59 ∧
      toOrdinal e = toOrdinal s + 6 ∧ get_date_range_tz = "US/Eastern" :=
  get_date_range_week_monday_sunday ⟨2024, 10, 12, 14, 30, 45, 123456⟩
    (by decide)

/-- C3: for every valid instant taken as the current time, the Month range
starts on day 1 of the current month at 00:00:00 and ends at 23:59:59 on the
last calendar day (`daysInMonth`) of that same month. -/
theorem get_date_range_month_first_to_last (today : DateTime)
    (h : ValidDT today) :
    ∃ s e, get_date_range "Month" today = some (s, e) ∧
      s = ⟨today.year, today.month, 1, 0, 0, 0, 0⟩ ∧
      e = ⟨today.year, today.month, daysInMonth today.year today.month,
        23, 59, 59, 0⟩ :=
  ⟨_, _, get_date_range_month_eq today h, rfl, rfl⟩

theorem get_date_range_month_first_to_last_witness :
    ∃ s e,
      get_date_range "Month" ⟨2024, 2, 10, 5, 6, 7, 8⟩ = some (s, e) ∧
      s = ⟨2024, 2, 1, 0, 0, 0, 0⟩ ∧
      e = ⟨2024, 2, daysInMonth 2024 2, 23, 59, 59, 0⟩ :=
  get_date_range_month_first_to_last ⟨2024, 2, 10, 5, 6, 7, 8⟩ (by decide)

/-- C4: for every valid instant taken as the current time, with
`q = (month - 1) / 3 + 1` the current quarter, the Quarter range starts at
00:00:00 on day 1 of month `3q - 2` — one of months 1, 4, 7, 10, the month
that opens the quarter containing the current month — and ends at 23:59:59
on the last day of month `3q` (the last second before the next quarter) for
quarters 1–3, or on December 31 for quarter 4; the computation's fixed
timezone constant is US/Eastern. -/
theorem get_date_range_quarter_boundaries (today : DateTime)
    (h : ValidDT today) :
    ∃ s e, get_date_range "Quarter" today = some (s, e) ∧
      s = ⟨today.year, 3 * ((today.month - 1) / 3 + 1) - 2, 1, 0, 0, 0, 0⟩ ∧
      (s.month = 1 ∨ s.month = 4 ∨ s.month = 7 ∨ s.month = 10) ∧
      s.month ≤ today.month ∧ today.month ≤ s.month + 2 ∧
      ((today.month - 1) / 3 + 1 < 4 →
        e = ⟨today.year, 3 * ((today.month - 1) / 3 + 1),
          daysInMonth today.year (3 * ((today.month - 1) / 3 + 1)),
          23, 59, 59, 0⟩) ∧
      (¬(today.month - 1) / 3 + 1 < 4 →
        e = ⟨today.year, 12, 31, 23, 59, 59, 0⟩) ∧
      get_date_range_tz = "US/Eastern" := by
  have hm1 := h.2.1
  have hm2 := h.2.2.1
  refine ⟨_, _, get_date_range_quarter_eq today, rfl, ?_, ?_, ?_, ?_, ?_,
    rfl⟩
  · dsimp only
    omega
  · dsimp only
    omega
  · dsimp only
    omega
  · intro hlt
    rw [if_pos hlt]
  · intro hlt
    rw [if_neg hlt]

theorem get_date_range_quarter_boundaries_witness :
    ∃ s e,
      get_date_range "Quarter" ⟨2024, 11, 15, 1, 2, 3, 4⟩ = some (s, e) ∧
      s = ⟨2024, 3 * ((11 - 1) / 3 + 1) - 2, 1, 0, 0, 0, 0⟩ ∧
      (s.month = 1 ∨ s.month = 4 ∨ s.month = 7 ∨ s.month = 10) ∧
      s.month ≤ 11 ∧ (11 : Nat) ≤ s.month + 2 ∧
      ((11 - 1) / 3 + 1 < 4 →
        e = ⟨2024, 3 * ((11 - 1) / 3 + 1),
          daysInMonth 2024 (3 * ((11 - 1) / 3 + 1)), 23, 59, 59, 0⟩) ∧
      (¬(11 - 1) / 3 + 1 < 4 → e = ⟨2024, 12, 31, 23, 59, 59, 0⟩) ∧
      get_date_range_tz = "US/Eastern" :=
  get_date_range_quarter_boundaries ⟨2024, 11, 15, 1, 2, 3, 4⟩ (by decide)

lemma mapOption_cons {A B : Type} (f : A → Option B) (a : A) (l : List A) :
    mapOption f (a :: l) =
      (f a).bind (fun b => (mapOption f l).map (fun bs => b :: bs)) := by
  cases hfa : f a <;> cases hml : mapOption f l <;>
    simp [mapOption, hfa, hml]

lemma mapOption_length {A B : Type} (f : A → Option B) (l : List A) :
    ∀ r : List B, mapOption f l = some r → r.length = l.length := by
  induction l with
  | nil =>
    intro r h
    have : r = [] := by
      simpa [mapOption] using h.symm
    subst this
    rfl
  | cons a l ih =>
    intro r h
    rw [mapOption_cons] at h
    cases hfa : f a with
    | none =>
      rw [hfa] at h
      exact absurd h (by simp)
    | some b =>
      rw [hfa] at h
      cases hml : mapOption f l with
      | none =>
        rw [hml] at h
        exact absurd h (by simp)
      | some bs =>
        rw [hml] at h
        obtain rfl : b :: bs = r := by simpa using h
        simp [ih bs hml]

lemma mapOption_get {A B : Type} (f : A → Option B) (l : List A) :
    ∀ (r : List B), mapOption f l = some r →
      ∀ (i : Nat) (hi : i < l.length) (hr : i < r.length),
        f (l.get ⟨i, hi⟩) = some (r.get ⟨i, hr⟩) := by
  induction l with
  | nil =>
    intro r _ i hi
    exact absurd hi (by simp)
  | cons a l ih =>
    intro r h i hi hr
    rw [mapOption_cons] at h
    cases hfa : f a with
    | none =>
      rw [hfa] at h
      exact absurd h (by simp)
    | some b =>
      rw [hfa] at h
      cases hml : mapOption f l with
      | none =>
        rw [hml] at h
        exact absurd h (by simp)
      | some bs =>
        rw [hml] at h
        obtain rfl : b :: bs = r := by simpa using h
        cases i with
        | zero => simpa using hfa
        | succ j =>
          exact ih bs hml j (by simpa using hi) (by simpa using hr)

lemma mapOption_none_of_mem {A B : Type} (f : A → Option B) (l : List A)
    (a : A) (ha : a ∈ l) (hfa : f a = none) : mapOption f l = none := by
  induction l with
  | nil => cases ha
  | cons x l ih =>
    rcases List.mem_cons.mp ha with rfl | hmem
    · cases hml : mapOption f l <;> simp [mapOption, hfa, hml]
    · rw [mapOption_cons, ih hmem]
      cases f x <;> rfl

lemma buildRows_length (rs : List RawRecord) :
    ∀ (i : Nat) (cs : List Int) (ps : List ℚ) (ds : List (Option CalDate)),
      rs.length = cs.length → rs.length = ps.length →
      rs.length = ds.length →
      (buildRows i rs cs ps ds).length = rs.length := by
  induction rs with
  | nil =>
    intro i cs ps ds _ _ _
    rfl
  | cons r rs ih =>
    intro i cs ps ds h1 h2 h3
    cases cs with
    | nil => exact absurd h1 (by simp)
    | cons c cs =>
      cases ps with
      | nil => exact absurd h2 (by simp)
      | cons p ps =>
        cases ds with
        | nil => exact absurd h3 (by simp)
        | cons d ds =>
          show (buildRows (i + 1) rs cs ps ds).length + 1 = rs.length + 1
          rw [ih (i + 1) cs ps ds (by simpa using h1) (by simpa using h2)
            (by simpa using h3)]

lemma buildRows_get (rs : List RawRecord) :
    ∀ (i : Nat) (cs : List Int) (ps : List ℚ) (ds : List (Option CalDate)),
      rs.length = cs.length → rs.length = ps.length →
      rs.length = ds.length →
      ∀ (j : Nat) (hj : j < (buildRows i rs cs ps ds).length)
        (hjr : j < rs.length) (hjc : j < cs.length) (hjp : j < ps.length)
        (hjd : j < ds.length),
        (buildRows i rs cs ps ds).get ⟨j, hj⟩ =
          ⟨i + j, (rs.get ⟨j, hjr⟩).PolicyType, cs.get ⟨j, hjc⟩,
            ps.get ⟨j, hjp⟩, ds.get ⟨j, hjd⟩⟩ := by
  induction rs with
  | nil =>
    intro i cs ps ds _ _ _ j _ hjr
    exact absurd hjr (by simp)
  | cons r rs ih =>
    intro i cs ps ds h1 h2 h3 j hj hjr hjc hjp hjd
    cases cs with
    | nil => exact absurd h1 (by simp)
    | cons c cs =>
      cases ps with
      | nil => exact absurd h2 (by simp)
      | cons p ps =>
        cases ds with
        | nil => exact absurd h3 (by simp)
        | cons d ds =>
          cases j with
          | zero => rfl
          | succ k =>
            have := ih (i + 1) cs ps ds (by simpa using h1)
              (by simpa using h2) (by simpa using h3) k
              (by simpa [buildRows] using hj) (by simpa using hjr)
              (by simpa using hjc) (by simpa using hjp)
              (by simpa using hjd)
            show (buildRows (i + 1) rs cs ps ds).get ⟨k, _⟩ = _
            rw [this]
            congr 1
            omega

lemma shapeRecords_ok (records : List RawRecord) (counts : List Int)
    (dates : List (Option CalDate)) (hne : records ≠ [])
    (hc : mapOption (fun r => coerceCount r.PolicyCount) records =
      some counts)
    (hd : mapOption (fun r => coerceDate r.EffectiveDate) records =
      some dates) :
    shapeRecords records = .ok (buildRows 1 records counts
      (records.map (fun r => coercePremium r.TotalPremium)) dates) := by
  unfold shapeRecords
  rw [if_neg hne, hc, hd]

lemma shapeRecords_ok_inv (records : List RawRecord) (t : List ShapedRow)
    (h : shapeRecords records = .ok t) :
    records ≠ [] ∧ ∃ counts dates,
      mapOption (fun r => coerceCount r.PolicyCount) records = some counts ∧
      mapOption (fun r => coerceDate r.EffectiveDate) records = some dates ∧
      t = buildRows 1 records counts
        (records.map (fun r => coercePremium r.TotalPremium)) dates := by
  unfold shapeRecords at h
  by_cases hne : records = []
  · rw [if_pos hne] at h
    exact absurd h (by simp)
  · rw [if_neg hne] at h
    cases hc : mapOption (fun r => coerceCount r.PolicyCount) records with
    | none =>
      rw [hc] at h
      exact absurd h (by simp)
    | some counts =>
      rw [hc] at h
      cases hd : mapOption (fun r => coerceDate r.EffectiveDate) records with
      | none =>
        rw [hd] at h
        exact absurd h (by simp)
      | some dates =>
        rw [hd] at h
        refine ⟨hne, counts, dates, rfl, rfl, ?_⟩
        have := h
        simp only [Except.ok.injEq] at this
        exact this.symm

lemma shapeRecords_length (records : List RawRecord) (t : List ShapedRow)
    (h : shapeRecords records = .ok t) : t.length = records.length := by
  obtain ⟨hne, counts, dates, hc, hd, rfl⟩ := shapeRecords_ok_inv records t h
  have l1 := mapOption_length _ records counts hc
  have l2 := mapOption_length _ records dates hd
  exact buildRows_length records 1 counts _ dates l1.symm (by simp) l2.symm

lemma shapeRecords_row (records : List RawRecord) (t : List ShapedRow)
    (h : shapeRecords records = .ok t) (i : Nat) (hi : i < t.length)
    (hir : i < records.length) :
    (t.get ⟨i, hi⟩).PolicyType = (records.get ⟨i, hir⟩).PolicyType ∧
    (t.get ⟨i, hi⟩).OpportunityIndex = i + 1 ∧
    (t.get ⟨i, hi⟩).TotalPremium =
      coercePremium (records.get ⟨i, hir⟩).TotalPremium ∧
    coerceCount (records.get ⟨i, hir⟩).PolicyCount =
      some ((t.get ⟨i, hi⟩).PolicyCount) ∧
    coerceDate (records.get ⟨i, hir⟩).EffectiveDate =
      some ((t.get ⟨i, hi⟩).EffectiveDate) := by
  obtain ⟨hne, counts, dates, hc, hd, rfl⟩ := shapeRecords_ok_inv records t h
  have l1 := mapOption_length _ records counts hc
  have l2 := mapOption_length _ records dates hd
  have hb := buildRows_get records 1 counts
    (records.map (fun r => coercePremium r.TotalPremium)) dates l1.symm
    (by simp) l2.symm i hi hir (by omega) (by simpa using hir) (by omega)
  rw [hb]
  refine ⟨rfl, by dsimp only; omega, ?_, ?_, ?_⟩
  · show (records.map (fun r => coercePremium r.TotalPremium)).get
      ⟨i, by simpa using hir⟩ = _
    simp
  · have := mapOption_get _ records counts hc i hir (by omega)
    rw [this]
  · have := mapOption_get _ records dates hd i hir (by omega)
    rw [this]

lemma connect_ok (env : SalesforceEnv) (sd ed : String)
    (qr : QueryResponse) (records : List RawRecord) (t : List ShapedRow)
    (hauth : env.authOk = true) (hfr : env.firstResponse = some qr)
    (hfetch : fetchRecords qr env.morePages = some records)
    (hshape : shapeRecords records = .ok t) :
    connect_to_salesforce_and_run_query env sd ed =
      some (t, soql_query sd ed) := by
  unfold connect_to_salesforce_and_run_query
  simp [hauth, hfr, hfetch, hshape]

lemma connect_none_of_shape_error (env : SalesforceEnv) (sd ed : String)
    (qr : QueryResponse) (records : List RawRecord) (err : ShapeError)
    (hfr : env.firstResponse = some qr)
    (hfetch : fetchRecords qr env.morePages = some records)
    (hshape : shapeRecords records = .error err) :
    connect_to_salesforce_and_run_query env sd ed = none := by
  unfold connect_to_salesforce_and_run_query
  by_cases hauth : env.authOk <;> simp [hauth, hfr, hfetch, hshape]

lemma session_step_fields_of_run_none (s : SessionState) (button : Bool)
    (env : SalesforceEnv) (sd ed : String)
    (hrun : connect_to_salesforce_and_run_query env sd ed = none) :
    (session_step s button env sd ed).authenticated = s.authenticated ∧
    (session_step s button env sd ed).df = s.df ∧
    (session_step s button env sd ed).query = s.query := by
  unfold session_step
  simp only [hrun]
  cases button <;> split_ifs <;> exact ⟨rfl, rfl, rfl⟩

/-- C5: with a first page carrying a continuation cursor and a second page
carrying none, execution fetches exactly the two pages' records in page
order (`rows1 ++ rows2`); when shaping succeeds, the returned ResultTable is
exactly the shaped image of that concatenation: one row per fetched record,
in page order, with the synthetic index numbering the rows 1..N in that
order. -/
theorem two_page_query_union (rows1 rows2 : List RawRecord)
    (url sd ed : String) (t : List ShapedRow)
    (hshape : shapeRecords (rows1 ++ rows2) = .ok t) :
    fetchRecords ⟨rows1, some url⟩ [⟨rows2, none⟩] = some (rows1 ++ rows2) ∧
    connect_to_salesforce_and_run_query
        ⟨true, some ⟨rows1, some url⟩, [⟨rows2, none⟩]⟩ sd ed =
      some (t, soql_query sd ed) ∧
    t.length = rows1.length + rows2.length ∧
    ∀ (i : Nat) (hi : i < t.length) (hir : i < (rows1 ++ rows2).length),
      (t.get ⟨i, hi⟩).PolicyType =
        ((rows1 ++ rows2).get ⟨i, hir⟩).PolicyType ∧
      (t.get ⟨i, hi⟩).OpportunityIndex = i + 1 := by
  have hfetch : fetchRecords ⟨rows1, some url⟩ [⟨rows2, none⟩] =
      some (rows1 ++ rows2) := rfl
  refine ⟨hfetch,
    connect_ok _ sd ed ⟨rows1, some url⟩ (rows1 ++ rows2) t rfl rfl hfetch
      hshape,
    (shapeRecords_length _ _ hshape).trans (by simp), ?_⟩
  intro i hi hir
  have hrow := shapeRecords_row _ _ hshape i hi hir
  exact ⟨hrow.1, hrow.2.1⟩

/-- C6 counterexample: an authentication failure and a query-time failure
produce identical observable results at the executor's boundary — both are
caught by the single handler and returned as the same failure value `none`
(the source's `(None, None)`), so the two error classes are not
distinguishable by the caller. -/
theorem auth_and_query_failures_identical :
    connect_to_salesforce_and_run_query
        ⟨false, some ⟨[⟨none, some "Auto", FieldValue.vNum 1,
          FieldValue.vNull, FieldValue.vNull⟩], none⟩, []⟩ "S" "E" =
      connect_to_salesforce_and_run_query ⟨true, none, []⟩ "S" "E" ∧
    connect_to_salesforce_and_run_query ⟨true, none, []⟩ "S" "E" = none :=
  ⟨rfl, rfl⟩

/-- C6 amended: both authentication failures and query-submission failures
are surfaced to the caller identically as the single failure value `none`
(the source's `(None, None)`); the executor's boundary does not distinguish
an AuthError class from a QueryError class. -/
theorem executor_failures_collapse (env : SalesforceEnv) (sd ed : String)
    (hfail : env.authOk = false ∨ env.firstResponse = none) :
    connect_to_salesforce_and_run_query env sd ed = none := by
  unfold connect_to_salesforce_and_run_query
  rcases hfail with h | h
  · simp [h]
  · by_cases ha : env.authOk <;> simp [ha, h]

theorem executor_failures_collapse_witness :
    connect_to_salesforce_and_run_query ⟨false, none, []⟩ "S" "E" = none :=
  executor_failures_collapse ⟨false, none, []⟩ "S" "E" (Or.inl rfl)

/-- C7: whenever some fetched row's count field does not coerce to an
integer (e.g. the string `"abc"`), shaping fails with `TypeCoercionError`
rather than producing a value, and the session cache is untouched: the
cached table, query text and authenticated flag keep their previous
values. -/
theorem bad_count_aborts_and_preserves_cache (records : List RawRecord)
    (hbad : ∃ r ∈ records, coerceCount r.PolicyCount = none) :
    shapeRecords records = .error .typeCoercionError ∧
    ∀ (s : SessionState) (button : Bool) (env : SalesforceEnv)
      (sd ed : String) (qr : QueryResponse),
      env.firstResponse = some qr →
      fetchRecords qr env.morePages = some records →
      (session_step s button env sd ed).authenticated = s.authenticated ∧
      (session_step s button env sd ed).df = s.df ∧
      (session_step s button env sd ed).query = s.query := by
  obtain ⟨r, hmem, hr⟩ := hbad
  have hne : records ≠ [] := by
    intro hcon
    subst hcon
    cases hmem
  have hcol : mapOption (fun rr => coerceCount rr.PolicyCount) records =
      none := mapOption_none_of_mem _ records r hmem hr
  have hshape : shapeRecords records = .error .typeCoercionError := by
    unfold shapeRecords
    rw [if_neg hne, hcol]
  refine ⟨hshape, ?_⟩
  intro s button env sd ed qr hfr hfetch
  exact session_step_fields_of_run_none s button env sd ed
    (connect_none_of_shape_error env sd ed qr records _ hfr hfetch hshape)

/-- C8: premium shaping never fails — shaping succeeds whenever the count
and date columns coerce, with no condition at all on the premium column —
and on every row an unparseable or missing premium becomes exactly zero
while a parseable one keeps its numeric value. -/
theorem premium_unparseable_maps_to_zero (records : List RawRecord)
    (counts : List Int) (dates : List (Option CalDate))
    (hne : records ≠ [])
    (hc : mapOption (fun r => coerceCount r.PolicyCount) records =
      some counts)
    (hd : mapOption (fun r => coerceDate r.EffectiveDate) records =
      some dates) :
    ∃ t, shapeRecords records = .ok t ∧ t.length = records.length ∧
      ∀ (i : Nat) (hi : i < t.length) (hir : i < records.length),
        (toNumericQ (records.get ⟨i, hir⟩).TotalPremium = none →
          (t.get ⟨i, hi⟩).TotalPremium = 0) ∧
        ∀ q, toNumericQ (records.get ⟨i, hir⟩).TotalPremium = some q →
          (t.get ⟨i, hi⟩).TotalPremium = q := by
  have hok := shapeRecords_ok records counts dates hne hc hd
  refine ⟨_, hok, shapeRecords_length _ _ hok, ?_⟩
  intro i hi hir
  have hrow := shapeRecords_row _ _ hok i hi hir
  rw [hrow.2.2.1]
  constructor
  · intro hnone
    unfold coercePremium
    rw [hnone]
    rfl
  · intro q hsome
    unfold coercePremium
    rw [hsome]
    rfl

/-- C10: when the remote query succeeds but returns zero rows, execution
does not return an empty ResultTable: shaping the empty record set raises
(the empty DataFrame has no `PolicyCount` column to select), the exception
is caught, and the function returns the failure value `none` (the source's
`(None, None)`). -/
theorem empty_result_yields_none (env : SalesforceEnv) (sd ed : String)
    (qr : QueryResponse) (hfr : env.firstResponse = some qr)
    (hfetch : fetchRecords qr env.morePages = some []) :
    shapeRecords ([] : List RawRecord) = .error .keyError ∧
    connect_to_salesforce_and_run_query env sd ed = none := by
  refine ⟨rfl, ?_⟩
  exact connect_none_of_shape_error env sd ed qr [] _ hfr hfetch rfl

lemma sum_filter_partition {A M : Type} [AddCommMonoid M] (f : A → M)
    (p : A → Bool) (l : List A) :
    ((l.filter p).map f).sum + ((l.filter (fun a => !p a)).map f).sum =
      (l.map f).sum := by
  induction l with
  | nil => simp
  | cons a l ih =>
    by_cases hpa : p a
    · have e1 : List.filter p (a :: l) = a :: List.filter p l := by
        simp [List.filter_cons, hpa]
      have e2 : List.filter (fun x => !p x) (a :: l) =
          List.filter (fun x => !p x) l := by
        simp [List.filter_cons, hpa]
      rw [e1, e2, List.map_cons, List.sum_cons, List.map_cons, List.sum_cons,
        add_assoc, ih]
    · have e1 : List.filter p (a :: l) = List.filter p l := by
        simp [List.filter_cons, hpa]
      have e2 : List.filter (fun x => !p x) (a :: l) =
          a :: List.filter (fun x => !p x) l := by
        simp [List.filter_cons, hpa]
      rw [e1, e2, List.map_cons, List.sum_cons, List.map_cons, List.sum_cons,
        add_left_comm, ih]

lemma sum_over_keys {M : Type} [AddCommMonoid M] (f : ShapedRow → M)
    (K : List String) :
    K.Nodup →
    ∀ rows : List ShapedRow,
      (∀ r ∈ rows, ∃ k ∈ K, r.PolicyType = some k) →
      (K.map (fun k => sumBy rows k f)).sum = (rows.map f).sum := by
  induction K with
  | nil =>
    intro _ rows hcov
    cases rows with
    | nil => simp
    | cons r rows =>
      obtain ⟨k, hk, _⟩ := hcov r (by simp)
      exact absurd hk (by simp)
  | cons k K ih =>
    intro hnd rows hcov
    have hknotin : k ∉ K := (List.nodup_cons.mp hnd).1
    have hndK : K.Nodup := (List.nodup_cons.mp hnd).2
    set rest := rows.filter (fun r => !(decide (r.PolicyType = some k)))
      with hrest
    have hcovrest : ∀ r ∈ rest, ∃ k2 ∈ K, r.PolicyType = some k2 := by
      intro r hr
      have hrrows : r ∈ rows := List.mem_of_mem_filter hr
      obtain ⟨k0, hk0, heq⟩ := hcov r hrrows
      rcases List.mem_cons.mp hk0 with rfl | hk0K
      · exfalso
        have := List.of_mem_filter hr
        rw [heq] at this
        simp at this
      · exact ⟨k0, hk0K, heq⟩
    have hsame : ∀ k2 ∈ K, sumBy rows k2 f = sumBy rest k2 f := by
      intro k2 hk2
      have hne : k2 ≠ k := by
        rintro rfl
        exact hknotin hk2
      unfold sumBy
      rw [hrest, List.filter_filter]
      have hfc : List.filter
          (fun a => decide (a.PolicyType = some k2) &&
            !decide (a.PolicyType = some k)) rows =
          List.filter (fun a => decide (a.PolicyType = some k2)) rows := by
        apply List.filter_congr
        intro r _
        by_cases hh : r.PolicyType = some k2
        · simp [hh, hne]
        · simp [hh]
      rw [hfc]
    have hmapsame : (K.map (fun k2 => sumBy rows k2 f)).sum =
        (K.map (fun k2 => sumBy rest k2 f)).sum := by
      have hmap : K.map (fun k2 => sumBy rows k2 f) =
          K.map (fun k2 => sumBy rest k2 f) := by
        apply List.map_congr_left
        intro k2 hk2
        exact hsame k2 hk2
      rw [hmap]
    have hihrest := ih hndK rest hcovrest
    have hpart := sum_filter_partition f
      (fun r => decide (r.PolicyType = some k)) rows
    simp only [List.map_cons, List.sum_cons]
    rw [hmapsame, hihrest]
    unfold sumBy
    rw [hrest]
    exact hpart

/-- C9: aggregation never drops a non-null group: when every row of the
input table has a non-null `PolicyType`, the grouped output's summed
`PolicyCount` column adds up to the input's total `PolicyCount`, and
likewise for `TotalPremium`. -/
theorem aggregate_preserves_sums (rows : List ShapedRow)
    (h : ∀ r ∈ rows, r.PolicyType ≠ none) :
    ((policy_type_analysis rows).map (fun g => g.2.1)).sum =
      (rows.map (fun r => r.PolicyCount)).sum ∧
    ((policy_type_analysis rows).map (fun g => g.2.2)).sum =
      (rows.map (fun r => r.TotalPremium)).sum := by
  have hperm : List.Perm (groupKeys rows)
      ((rows.filterMap (fun r => r.PolicyType)).dedup) := by
    unfold groupKeys
    exact List.mergeSort_perm _ _
  have hnd : ((rows.filterMap (fun r => r.PolicyType)).dedup).Nodup :=
    List.nodup_dedup _
  have hndK : (groupKeys rows).Nodup := hperm.nodup_iff.mpr hnd
  have hcov : ∀ r ∈ rows, ∃ k ∈ groupKeys rows, r.PolicyType = some k := by
    intro r hr
    cases hpt : r.PolicyType with
    | none => exact absurd hpt (h r hr)
    | some k =>
      refine ⟨k, ?_, rfl⟩
      apply hperm.mem_iff.mpr
      apply List.mem_dedup.mpr
      exact List.mem_filterMap.mpr ⟨r, hr, hpt⟩
  constructor
  · have := sum_over_keys (fun r => r.PolicyCount) (groupKeys rows) hndK
      rows hcov
    unfold policy_type_analysis
    rw [List.map_map]
    exact this
  · have := sum_over_keys (fun r => r.TotalPremium) (groupKeys rows) hndK
      rows hcov
    unfold policy_type_analysis
    rw [List.map_map]
    exact this

/-- Sample raw records used by the concrete witnesses. -/
def sampleRecord1 : RawRecord :=
  ⟨some "meta", some "Auto", .vNum 3, .vNum 10, .vStr "2024-01-15"⟩

def sampleRecord2 : RawRecord :=
  ⟨none, some "Home", .vNum 5, .vNull, .vNull⟩

def sampleRecordBadCount : RawRecord :=
  ⟨none, some "Auto", .vStr "abc", .vNum 1, .vNull⟩

def sampleRecordBadPremium : RawRecord :=
  ⟨none, some "Flood", .vNum 7, .vStr "garbage", .vNull⟩

theorem two_page_query_union_witness :
    fetchRecords ⟨[sampleRecord1], some "u"⟩ [⟨[sampleRecord2], none⟩] =
      some ([sampleRecord1] ++ [sampleRecord2]) ∧
    connect_to_salesforce_and_run_query
        ⟨true, some ⟨[sampleRecord1], some "u"⟩, [⟨[sampleRecord2], none⟩]⟩
        "S" "E" =
      some ([⟨1, some "Auto", 3, 10, some ⟨2024, 1, 15⟩⟩,
        ⟨2, some "Home", 5, 0, none⟩], soql_query "S" "E") ∧
    ([(⟨1, some "Auto", 3, 10, some ⟨2024, 1, 15⟩⟩ : ShapedRow),
      ⟨2, some "Home", 5, 0, none⟩]).length =
      [sampleRecord1].length + [sampleRecord2].length ∧
    ∀ (i : Nat)
      (hi : i < ([(⟨1, some "Auto", 3, 10, some ⟨2024, 1, 15⟩⟩ : ShapedRow),
        ⟨2, some "Home", 5, 0, none⟩]).length)
      (hir : i < ([sampleRecord1] ++ [sampleRecord2]).length),
      (([(⟨1, some "Auto", 3, 10, some ⟨2024, 1, 15⟩⟩ : ShapedRow),
        ⟨2, some "Home", 5, 0, none⟩]).get ⟨i, hi⟩).PolicyType =
        (([sampleRecord1] ++ [sampleRecord2]).get ⟨i, hir⟩).PolicyType ∧
      (([(⟨1, some "Auto", 3, 10, some ⟨2024, 1, 15⟩⟩ : ShapedRow),
        ⟨2, some "Home", 5, 0, none⟩]).get ⟨i, hi⟩).OpportunityIndex =
        i + 1 :=
  two_page_query_union [sampleRecord1] [sampleRecord2] "u" "S" "E"
    [⟨1, some "Auto", 3, 10, some ⟨2024, 1, 15⟩⟩,
      ⟨2, some "Home", 5, 0, none⟩] rfl

theorem bad_count_aborts_witness :
    shapeRecords [sampleRecordBadCount] =
      .error .typeCoercionError ∧
    ∀ (s : SessionState) (button : Bool) (env : SalesforceEnv)
      (sd ed : String) (qr : QueryResponse),
      env.firstResponse = some qr →
      fetchRecords qr env.morePages = some [sampleRecordBadCount] →
      (session_step s button env sd ed).authenticated = s.authenticated ∧
      (session_step s button env sd ed).df = s.df ∧
      (session_step s button env sd ed).query = s.query :=
  bad_count_aborts_and_preserves_cache [sampleRecordBadCount]
    ⟨sampleRecordBadCount, by decide, by decide⟩

theorem premium_fallback_witness :
    ∃ t, shapeRecords [sampleRecord1, sampleRecordBadPremium] = .ok t ∧
      t.length = [sampleRecord1, sampleRecordBadPremium].length ∧
      ∀ (i : Nat) (hi : i < t.length)
        (hir : i < [sampleRecord1, sampleRecordBadPremium].length),
        (toNumericQ (([sampleRecord1, sampleRecordBadPremium].get
            ⟨i, hir⟩).TotalPremium) = none →
          (t.get ⟨i, hi⟩).TotalPremium = 0) ∧
        ∀ q, toNumericQ (([sampleRecord1, sampleRecordBadPremium].get
            ⟨i, hir⟩).TotalPremium) = some q →
          (t.get ⟨i, hi⟩).TotalPremium = q :=
  premium_unparseable_maps_to_zero [sampleRecord1, sampleRecordBadPremium]
    [3, 7] [some ⟨2024, 1, 15⟩, none] (by decide) rfl rfl

theorem aggregate_preserves_sums_witness :
    ((policy_type_analysis
        [⟨1, some "Home", 2, 10, none⟩, ⟨2, some "Auto", 3, 5, none⟩,
          ⟨3, some "Home", 4, 1, none⟩]).map (fun g => g.2.1)).sum =
      (([(⟨1, some "Home", 2, 10, none⟩ : ShapedRow),
        ⟨2, some "Auto", 3, 5, none⟩,
        ⟨3, some "Home", 4, 1, none⟩]).map (fun r => r.PolicyCount)).sum ∧
    ((policy_type_analysis
        [⟨1, some "Home", 2, 10, none⟩, ⟨2, some "Auto", 3, 5, none⟩,
          ⟨3, some "Home", 4, 1, none⟩]).map (fun g => g.2.2)).sum =
      (([(⟨1, some "Home", 2, 10, none⟩ : ShapedRow),
        ⟨2, some "Auto", 3, 5, none⟩,
        ⟨3, some "Home", 4, 1, none⟩]).map
          (fun r => r.TotalPremium)).sum :=
  aggregate_preserves_sums
    [⟨1, some "Home", 2, 10, none⟩, ⟨2, some "Auto", 3, 5, none⟩,
      ⟨3, some "Home", 4, 1, none⟩] (by decide)

theorem empty_result_yields_none_witness :
    shapeRecords ([] : List RawRecord) = .error .keyError ∧
    connect_to_salesforce_and_run_query ⟨true, some ⟨[], none⟩, []⟩
      "S" "E" = none :=
  empty_result_yields_none ⟨true, some ⟨[], none⟩, []⟩ "S" "E" ⟨[], none⟩
    rfl rfl
